import Mathlib

/-!
Verification of `2mic_service.py` (ReSpeaker 2mic HAT LED service).

The development shallowly embeds the two components the specification talks
about:

* the `APA102` SPI LED driver (class `APA102`, lines 209-280 of the source):
  the pixel buffer is a `List Nat` of bytes, `set_pixel` and `show` are pure
  functions on a driver state, and the SPI bus is modelled as the list of
  byte lists handed to `spi.xfer2`;
* the Wyoming event handler (`LEDsEventHandler`, lines 119-207): its mutable
  fields become a record, asyncio tasks become explicit task records with a
  status, and the interleaving of event arrivals and delayed-task firings
  becomes an explicit list of actions folded over the state.  Cancellation
  of a task delivers its `CancelledError` branch immediately (the service
  runs on a single event loop, so the branch runs before the next event of
  the same handler is processed).

Python's `int(ceil(x * y / 100.0))` on the small non-negative integers used
here is exact, so it is embedded as the natural-number ceiling division
`(x * y + 99) / 100`.
-/

namespace TwoMic

/-! ### APA102 driver (source lines 209-280) -/

/-- `MAX_BRIGHTNESS = 0b11111` (source line 216). -/
def MAX_BRIGHTNESS : Nat := 0b11111

/-- `LED_START = 0b11100000` (source line 217). -/
def LED_START : Nat := 0b11100000

/-- `RGB_MAP` (source lines 32-39): byte offsets, within a 4-byte pixel word,
of the red, green and blue channels for each of the six order strings. -/
def RGB_MAP : String → Option (Nat × Nat × Nat)
  | "rgb" => some (3, 2, 1)
  | "rbg" => some (3, 1, 2)
  | "grb" => some (2, 3, 1)
  | "gbr" => some (2, 1, 3)
  | "brg" => some (1, 3, 2)
  | "bgr" => some (1, 2, 3)
  | _ => none

/-- Python's `str.lower()` on the order string, character by character. -/
def lower (s : String) : String := ⟨s.data.map Char.toLower⟩

/-- State of one `APA102` driver instance.  The SPI handle, bus/device
numbers and bus speed have no effect on the buffer contents or on which
bytes are transferred, so they are not part of the state. -/
structure APA102 where
  num_led : Nat
  rgb : Nat × Nat × Nat
  global_brightness : Nat
  leds : List Nat
  deriving DecidableEq, Repr

/-- `APA102.__init__` (source lines 219-243): looks the order string up in
`RGB_MAP` falling back to `"rgb"`, clamps `global_brightness` to
`MAX_BRIGHTNESS`, and builds the pixel buffer `[LED_START, 0, 0, 0] * num_led`. -/
def APA102.init (num_led global_brightness : Nat) (order : String) : APA102 :=
  { num_led := num_led
    rgb := (RGB_MAP (lower order)).getD (3, 2, 1)
    global_brightness :=
      if global_brightness > MAX_BRIGHTNESS then MAX_BRIGHTNESS else global_brightness
    leds := (List.replicate num_led [LED_START, 0, 0, 0]).flatten }

/-- Exact value of Python's `int(ceil(n / 100.0))` for the natural numbers
in play (the float quotient of such integers rounds to a value whose ceiling
is the exact rational ceiling). -/
def ceil_div_100 (n : Nat) : Nat := (n + 99) / 100

/-- `APA102.set_pixel` (source lines 253-267).  `led_num` is an `Int`
because the Python guard distinguishes negative indices.  The brightness
byte is `(brightness & 0b00011111) | LED_START` exactly as in line 261, and
the four bytes of pixel `led_num` are assigned in source order. -/
def APA102.set_pixel (s : APA102) (led_num : Int) (red green blue : Nat)
    (bright_percent : Nat) : APA102 :=
  if led_num < 0 then s
  else if led_num ≥ (s.num_led : Int) then s
  else
    let brightness := ceil_div_100 (bright_percent * s.global_brightness)
    let ledstart := (brightness &&& 0b00011111) ||| LED_START
    let start_index := 4 * led_num.toNat
    let leds0 := s.leds.set start_index ledstart
    let leds1 := leds0.set (start_index + s.rgb.1) red
    let leds2 := leds1.set (start_index + s.rgb.2.1) green
    let leds3 := leds2.set (start_index + s.rgb.2.2) blue
    { s with leds := leds3 }

/-- Byte `k` of the pixel buffer (0 when out of range). -/
def APA102.getByte (s : APA102) (k : Nat) : Nat := s.leds.getD k 0

/-- The `while data: xfer2(data[:32]); data = data[32:]` loop of `show`
(source lines 272-275), with its variant — the length of `data`, which
shrinks by at least one each iteration — made explicit as a first argument
so that the recursion is structural. -/
def chunks32_go : Nat → List Nat → List (List Nat)
  | _, [] => []
  | 0, _ :: _ => []
  | fuel + 1, x :: xs => ((x :: xs).take 32) :: chunks32_go fuel ((x :: xs).drop 32)

/-- The buffer split into the `xfer2` chunks of at most 32 bytes;
`data.length` iterations always drain the loop. -/
def chunks32 (l : List Nat) : List (List Nat) := chunks32_go l.length l

/-- `clock_start_frame` (source line 247): 4 zero bytes. -/
def clock_start_frame : List Nat := List.replicate 4 0

/-- `clock_end_frame` (source line 251): 4 bytes of 0xFF. -/
def clock_end_frame : List Nat := List.replicate 4 0xFF

/-- `APA102.show` (source lines 269-276) as the list of byte lists passed to
`spi.xfer2`, in transmission order. -/
def APA102.show (s : APA102) : List (List Nat) :=
  clock_start_frame :: (chunks32 s.leds ++ [clock_end_frame])

/-! ### LEDsEventHandler (source lines 119-207) -/

/-- The color constants of lines 112-117. -/
inductive Color
  | black | white | red | yellow | blue | green
  deriving DecidableEq, Repr

/-- The two kinds of delayed coroutines the handler creates:
`handle_no_text_error`, stored in `self.error_task` (line 157), and
`turn_off_after_delay`, created at line 163 and stored nowhere. -/
inductive TaskKind
  | errorRevert | turnOff
  deriving DecidableEq, Repr

/-- Lifecycle of an asyncio task: sleeping at its `await`, cancelled, or
completed normally. -/
inductive TaskStatus
  | pending | cancelled | finished
  deriving DecidableEq, Repr

structure TaskRec where
  kind : TaskKind
  status : TaskStatus
  deriving DecidableEq, Repr

/-- The mutable fields of one `LEDsEventHandler` (lines 122-140) that the
claims concern, plus the log of every task ever created (identified by its
creation index; `error_task` points into that list). -/
structure ReactorState where
  is_processing : Bool
  display : Color
  tasks : List TaskRec
  error_task : Option Nat
  deriving DecidableEq, Repr

/-- How the awaited `aplay` subprocess invocation turns out. -/
inductive SoundOutcome
  | success | procFailure | execFailure
  deriving DecidableEq, Repr

inductive PlayError
  | playbackFailed | launchFailed
  deriving DecidableEq, Repr

/-- The body of the `try` block of `play_sound` (lines 44-52): launching and
awaiting `aplay` can fail. -/
def run_aplay : SoundOutcome → Except PlayError Unit
  | .success => .ok ()
  | .procFailure => .error .playbackFailed
  | .execFailure => .error .launchFailed

/-- `play_sound` (lines 41-54): every failure of the `aplay` invocation is
caught by the bare `except Exception` (line 53) and only logged. -/
def play_sound (o : SoundOutcome) : Except PlayError Unit :=
  match run_aplay o with
  | .ok () => .ok ()
  | .error _ => .ok ()

/-- Lines 146-148: `if self.error_task and not self.error_task.done():
self.error_task.cancel()`, together with the `except asyncio.CancelledError`
branch of `handle_no_text_error` (lines 190-195) that the event loop delivers
to the cancelled coroutine: it repaints yellow if `is_processing` is set,
black otherwise.  A task that already fired or was already cancelled is
`done()`, so nothing happens. -/
def cancel_error_task (s : ReactorState) : ReactorState :=
  match s.error_task with
  | none => s
  | some i =>
    match s.tasks[i]? with
    | some t =>
      if t.status = .pending then
        { s with
          tasks := s.tasks.set i { t with status := .cancelled }
          display := if s.is_processing then .yellow else .black }
      else s
    | none => s

/-- The event shapes `handle_event` distinguishes (lines 150-179).
`errorOther` is an `error` event whose code is not `stt-no-text-recognized`;
`other` is any event matching no branch. -/
inductive EventType
  | detection | errorNoText | errorOther | streamingStarted | synthesize
  | runSatellite | satelliteConnected | satelliteDisconnected | other
  deriving DecidableEq, Repr

/-- `handle_event` (lines 142-181): the state after the handler runs, plus
the exception, if any, escaping it.  The prologue cancels the stored error
task; then the branch for the event runs.  `detection` paints blue, sets the
flag, then awaits `play_sound`; an exception from that call would escape
with the mutations already applied.  `errorNoText` stores a fresh
`handle_no_text_error` task whose body runs to its first `await`, painting
red (line 186).  `synthesize` creates an untracked `turn_off_after_delay`
task whose first statement is its `await` (line 199).  `satelliteConnected`
flashes green/black twice, ending black (lines 169-173);
`satelliteDisconnected` shows red then black and clears the flag
(lines 176-179); only the final repaint of these blocking animations is
recorded. -/
def handle_event (o : SoundOutcome) (e : EventType) (s0 : ReactorState) :
    ReactorState × Option PlayError :=
  let s := cancel_error_task s0
  match e with
  | .detection =>
    let s1 := { s with display := Color.blue, is_processing := true }
    match play_sound o with
    | .ok () => (s1, none)
    | .error err => (s1, some err)
  | .errorNoText =>
    ({ s with
        tasks := s.tasks ++ [⟨.errorRevert, .pending⟩]
        error_task := some s.tasks.length
        display := Color.red }, none)
  | .streamingStarted =>
    (if s.is_processing then { s with display := Color.yellow } else s, none)
  | .synthesize =>
    ({ s with tasks := s.tasks ++ [⟨.turnOff, .pending⟩] }, none)
  | .runSatellite =>
    ({ s with is_processing := false, display := Color.black }, none)
  | .satelliteConnected =>
    ({ s with display := Color.black }, none)
  | .satelliteDisconnected =>
    ({ s with display := Color.black, is_processing := false }, none)
  | .errorOther => (s, none)
  | .other => (s, none)

/-- A pending delayed task's `await asyncio.sleep(5)` completes and the rest
of its body runs: `handle_no_text_error` paints black then clears the flag
(lines 188-189), `turn_off_after_delay` clears the flag then paints black
(lines 200-201) — the same net effect.  A task that is not pending cannot be
resumed by the loop, so nothing happens. -/
def fire_task (s : ReactorState) (i : Nat) : ReactorState :=
  match s.tasks[i]? with
  | some t =>
    if t.status = .pending then
      { s with
        tasks := s.tasks.set i { t with status := .finished }
        display := Color.black
        is_processing := false }
    else s
  | none => s

/-- One scheduler action: the handler receives an event (with the given
outcome for the wake chime, relevant only to `detection`), or the event loop
completes the sleep of delayed task `i`. -/
inductive Act
  | recv (e : EventType) (o : SoundOutcome)
  | fire (i : Nat)
  deriving DecidableEq, Repr

def step (s : ReactorState) : Act → ReactorState
  | .recv e o => (handle_event o e s).1
  | .fire i => fire_task s i

/-- Handler state right after `LEDsEventHandler.__init__` (lines 122-140):
flag clear, no error task, LEDs painted black. -/
def initState : ReactorState :=
  { is_processing := false, display := Color.black, tasks := [], error_task := none }

/-- The state after an interleaving of events and timer firings. -/
def run (acts : List Act) : ReactorState := acts.foldl step initState

/-- Number of outstanding (pending) delayed tasks. -/
def pending_count (s : ReactorState) : Nat :=
  s.tasks.countP (fun t => t.status == TaskStatus.pending)

/-- `NUM_LEDS` (source line 30). -/
def NUM_LEDS : Nat := 3

/-- The rgb triples bound to the color constants (lines 112-117). -/
def rgb_of : Color → Nat × Nat × Nat
  | .black => (0, 0, 0)
  | .white => (255, 255, 255)
  | .red => (255, 0, 0)
  | .yellow => (255, 255, 0)
  | .blue => (0, 0, 255)
  | .green => (0, 255, 0)

/-- `LEDsEventHandler.color` (lines 203-207): write the triple into all
`NUM_LEDS` pixels (default brightness percent 100). -/
def color (leds : APA102) (c : Color) : APA102 :=
  (List.range NUM_LEDS).foldl
    (fun a i => a.set_pixel i (rgb_of c).1 (rgb_of c).2.1 (rgb_of c).2.2 100) leds

/-- The pixel buffer a handler whose current color is `s.display` has pushed:
the service's driver (3 pixels, brightness `gb`, order `"rgb"`, line 88)
after `color`. -/
def render (gb : Nat) (s : ReactorState) : APA102 :=
  color (APA102.init NUM_LEDS gb "rgb") s.display

/-- The channel offsets of every constructible driver form a permutation of
(1, 2, 3): each offset is in [1, 3] and they are pairwise distinct. -/
def goodRGB (t : Nat × Nat × Nat) : Prop :=
  (1 ≤ t.1 ∧ t.1 ≤ 3) ∧ (1 ≤ t.2.1 ∧ t.2.1 ≤ 3) ∧ (1 ≤ t.2.2 ∧ t.2.2 ≤ 3) ∧
  t.1 ≠ t.2.1 ∧ t.1 ≠ t.2.2 ∧ t.2.1 ≠ t.2.2

instance (t : Nat × Nat × Nat) : Decidable (goodRGB t) := by
  unfold goodRGB; infer_instance

/-- The arguments of one recorded `set_pixel` call. -/
structure PixelCall where
  idx : Int
  red : Nat
  green : Nat
  blue : Nat
  bright : Nat
  deriving DecidableEq, Repr

/-- A sequence of `set_pixel` calls applied to a driver state. -/
def apply_calls (s : APA102) (cs : List PixelCall) : APA102 :=
  cs.foldl (fun a c => a.set_pixel c.idx c.red c.green c.blue c.bright) s

/-- Reactor task invariant: every pending error-revert task is the one
`error_task` currently references. -/
def ErrInv (s : ReactorState) : Prop :=
  ∀ i t, s.tasks[i]? = some t → t.kind = TaskKind.errorRevert →
    t.status = TaskStatus.pending → s.error_task = some i

/-! ### Helper lemmas: lists and bit arithmetic -/

theorem getD_set_self (l : List Nat) (i v : Nat) (h : i < l.length) :
    (l.set i v).getD i 0 = v := by
  simp [List.getD_eq_getElem?_getD, List.getElem?_set_self h]

theorem getD_set_ne (l : List Nat) (i j v : Nat) (h : i ≠ j) :
    (l.set i v).getD j 0 = l.getD j 0 := by
  simp [List.getD_eq_getElem?_getD, List.getElem?_set_ne h]

theorem and_31_eq_mod (x : Nat) : x &&& 31 = x % 32 := by
  have h := Nat.and_pow_two_sub_one_eq_mod x 5
  norm_num at h
  exact h

theorem and_31_of_le (x : Nat) (h : x ≤ 31) : x &&& 31 = x := by
  rw [and_31_eq_mod]; omega

theorem or_224_of_le (x : Nat) (h : x ≤ 31) : x ||| 224 = 224 + x := by
  have key : ∀ y, y < 32 → y ||| 224 = 224 + y := by decide
  exact key x (by omega)

/-- The encoded leading byte always has its top three bits set. -/
theorem ledstart_props (x : Nat) :
    224 ≤ ((x &&& 31) ||| 224) ∧ ((x &&& 31) ||| 224) &&& 224 = 224 := by
  have h1 : x &&& 31 ≤ 31 := Nat.and_le_right
  have h2 := or_224_of_le _ h1
  refine ⟨by omega, ?_⟩
  have key : ∀ y, y < 32 → (224 + y) &&& 224 = 224 := by decide
  rw [h2]; exact key _ (by omega)

theorem ceil_div_100_le (p gb : Nat) (hp : p ≤ 100) (hgb : gb ≤ 31) :
    ceil_div_100 (p * gb) ≤ 31 := by
  unfold ceil_div_100
  have hb : p * gb ≤ 3100 := by
    calc p * gb ≤ 100 * 31 := Nat.mul_le_mul hp hgb
    _ = 3100 := by norm_num
  omega

/-! ### Helper lemmas: `set_pixel` -/

/-- Closed form of an in-range `set_pixel` call. -/
theorem set_pixel_eq (s : APA102) (n r g b p : Nat) (hn : n < s.num_led) :
    s.set_pixel (n : Int) r g b p =
      { s with leds :=
          (((s.leds.set (4 * n)
              ((ceil_div_100 (p * s.global_brightness) &&& 31) ||| LED_START)).set
            (4 * n + s.rgb.1) r).set (4 * n + s.rgb.2.1) g).set (4 * n + s.rgb.2.2) b } := by
  unfold APA102.set_pixel
  rw [if_neg (by omega), if_neg (by omega)]
  simp [ceil_div_100]

theorem set_pixel_length (s : APA102) (i : Int) (r g b p : Nat) :
    (s.set_pixel i r g b p).leds.length = s.leds.length := by
  unfold APA102.set_pixel
  split
  · rfl
  · split
    · rfl
    · simp

theorem set_pixel_fields (s : APA102) (i : Int) (r g b p : Nat) :
    (s.set_pixel i r g b p).num_led = s.num_led ∧
    (s.set_pixel i r g b p).rgb = s.rgb ∧
    (s.set_pixel i r g b p).global_brightness = s.global_brightness := by
  unfold APA102.set_pixel
  split
  · exact ⟨rfl, rfl, rfl⟩
  · split
    · exact ⟨rfl, rfl, rfl⟩
    · exact ⟨rfl, rfl, rfl⟩

/-- Bytes outside pixel `n` are untouched by an in-range `set_pixel`. -/
theorem set_pixel_frame (s : APA102) (n r g b p : Nat) (hg : goodRGB s.rgb)
    (hn : n < s.num_led) (k : Nat) (hk : k < 4 * n ∨ 4 * n + 4 ≤ k) :
    (s.set_pixel (n : Int) r g b p).getByte k = s.getByte k := by
  obtain ⟨⟨h11, h13⟩, ⟨h21, h23⟩, ⟨h31, h33⟩, hab, hac, hbc⟩ := hg
  rw [set_pixel_eq s n r g b p hn]
  unfold APA102.getByte
  dsimp only
  rw [getD_set_ne _ _ _ _ (by omega), getD_set_ne _ _ _ _ (by omega),
      getD_set_ne _ _ _ _ (by omega), getD_set_ne _ _ _ _ (by omega)]

/-- The leading byte written by an in-range `set_pixel`. -/
theorem set_pixel_start_byte (s : APA102) (n r g b p : Nat) (hg : goodRGB s.rgb)
    (hn : n < s.num_led) (hlen : s.leds.length = 4 * s.num_led) :
    (s.set_pixel (n : Int) r g b p).getByte (4 * n) =
      ((ceil_div_100 (p * s.global_brightness)) &&& 31) ||| LED_START := by
  obtain ⟨⟨h11, h13⟩, ⟨h21, h23⟩, ⟨h31, h33⟩, hab, hac, hbc⟩ := hg
  rw [set_pixel_eq s n r g b p hn]
  unfold APA102.getByte
  dsimp only
  rw [getD_set_ne _ _ _ _ (by omega), getD_set_ne _ _ _ _ (by omega),
      getD_set_ne _ _ _ _ (by omega), getD_set_self _ _ _ (by rw [hlen]; omega)]

/-- The three channel bytes written by an in-range `set_pixel`. -/
theorem set_pixel_channel_bytes (s : APA102) (n r g b p : Nat) (hg : goodRGB s.rgb)
    (hn : n < s.num_led) (hlen : s.leds.length = 4 * s.num_led) :
    (s.set_pixel (n : Int) r g b p).getByte (4 * n + s.rgb.1) = r ∧
    (s.set_pixel (n : Int) r g b p).getByte (4 * n + s.rgb.2.1) = g ∧
    (s.set_pixel (n : Int) r g b p).getByte (4 * n + s.rgb.2.2) = b := by
  obtain ⟨⟨h11, h13⟩, ⟨h21, h23⟩, ⟨h31, h33⟩, hab, hac, hbc⟩ := hg
  rw [set_pixel_eq s n r g b p hn]
  unfold APA102.getByte
  dsimp only
  refine ⟨?_, ?_, ?_⟩
  · rw [getD_set_ne _ _ _ _ (by omega), getD_set_ne _ _ _ _ (by omega),
        getD_set_self _ _ _ (by simp [hlen]; omega)]
  · rw [getD_set_ne _ _ _ _ (by omega),
        getD_set_self _ _ _ (by simp [hlen]; omega)]
  · rw [getD_set_self _ _ _ (by simp [hlen]; omega)]

/-- An out-of-range index leaves the driver state unchanged (source lines
255-258). -/
theorem set_pixel_out_of_range (s : APA102) (i : Int) (r g b p : Nat)
    (h : i < 0 ∨ (s.num_led : Int) ≤ i) :
    s.set_pixel i r g b p = s := by
  unfold APA102.set_pixel
  rcases h with h | h
  · rw [if_pos h]
  · rw [if_neg (by omega), if_pos (by omega)]

/-! ### Helper lemmas: construction -/

theorem goodRGB_init (nl gb : Nat) (ord : String) : goodRGB (APA102.init nl gb ord).rgb := by
  unfold APA102.init RGB_MAP
  dsimp only
  split <;> decide

theorem init_num_led (nl gb : Nat) (ord : String) : (APA102.init nl gb ord).num_led = nl := rfl

theorem init_leds_length (nl gb : Nat) (ord : String) :
    (APA102.init nl gb ord).leds.length = 4 * nl := by
  unfold APA102.init
  dsimp only
  induction nl with
  | zero => simp
  | succ m ih => rw [List.replicate_succ, List.flatten_cons]; simp at ih ⊢; omega

theorem init_gb_le (nl gb : Nat) (ord : String) :
    (APA102.init nl gb ord).global_brightness ≤ 31 := by
  unfold APA102.init MAX_BRIGHTNESS
  dsimp only
  split <;> omega

/-- Every leading byte of the freshly constructed buffer is `LED_START`. -/
theorem init_lead_byte (nl k : Nat) (hk : k < nl) :
    ((List.replicate nl ([LED_START, 0, 0, 0] : List Nat)).flatten).getD (4 * k) 0 =
      LED_START := by
  induction nl generalizing k with
  | zero => omega
  | succ m ih =>
    rw [List.replicate_succ, List.flatten_cons]
    cases k with
    | zero => rfl
    | succ j =>
      have hlen4 : ([LED_START, 0, 0, 0] : List Nat).length = 4 := rfl
      rw [List.getD_eq_getElem?_getD,
          List.getElem?_append_right (by rw [hlen4]; omega), hlen4,
          show 4 * (j + 1) - 4 = 4 * j from by omega,
          ← List.getD_eq_getElem?_getD]
      exact ih j (by omega)

/-! ### Helper lemmas: chunking -/

theorem chunks32_go_flatten (fuel : Nat) (l : List Nat) (h : l.length ≤ fuel) :
    (chunks32_go fuel l).flatten = l := by
  induction fuel generalizing l with
  | zero =>
    cases l with
    | nil => rfl
    | cons x xs => simp at h
  | succ f ih =>
    cases l with
    | nil => rfl
    | cons x xs =>
      simp only [chunks32_go, List.flatten_cons]
      rw [ih _ (by simp only [List.length_drop, List.length_cons] at h ⊢; omega)]
      exact List.take_append_drop 32 (x :: xs)

theorem chunks32_flatten (l : List Nat) : (chunks32 l).flatten = l :=
  chunks32_go_flatten l.length l (Nat.le_refl _)

theorem chunks32_go_sizes (fuel : Nat) (l ch : List Nat) (h : ch ∈ chunks32_go fuel l) :
    ch.length ≤ 32 := by
  induction fuel generalizing l with
  | zero =>
    cases l with
    | nil => simp [chunks32_go] at h
    | cons x xs => simp [chunks32_go] at h
  | succ f ih =>
    cases l with
    | nil => simp [chunks32_go] at h
    | cons x xs =>
      simp only [chunks32_go] at h
      rcases List.mem_cons.mp h with h | h
      · subst h; simp [List.length_take]
      · exact ih _ h

/-! ### Driver claims -/

/-- C4, counterexample: at `bright_percent = 200` (allowed by the claim,
which quantifies over all `brightness_percent ≥ 0`) with
`global_brightness = 31` the computed ceiling is 62; the code writes
`(62 & 0b11111) | 0b11100000 = 254`, whereas the claimed clamp-to-31 would
write `(31 | 0b11100000) = 255`.  The brightness field is wrapped modulo 32,
not clamped. -/
theorem c4_counterexample :
    ((APA102.init 1 31 "rgb").set_pixel 0 0 0 0 200).getByte 0 = 254 ∧
    ceil_div_100 (200 * (APA102.init 1 31 "rgb").global_brightness) = 62 ∧
    ((min 31 (62 : Nat)) ||| 0b11100000 = 255) ∧ (254 : Nat) ≠ 255 := by decide

/-- C4, amended: the computed value `ceil(bright_percent * global_brightness
/ 100)` is masked with `& 0b11111`, i.e. reduced modulo 32, before being
encoded into the pixel's leading byte; for `bright_percent ≤ 100` and
`global_brightness ≤ 31` the computed value never exceeds 31, so on that
range the masked value coincides with the claimed clamp. -/
theorem c4_brightness_mask :
    (∀ (s : APA102) (n r g b p : Nat), goodRGB s.rgb → n < s.num_led →
        s.leds.length = 4 * s.num_led →
        (s.set_pixel (n : Int) r g b p).getByte (4 * n) =
          ((ceil_div_100 (p * s.global_brightness)) % 32) ||| LED_START) ∧
    (∀ p gb : Nat, p ≤ 100 → gb ≤ 31 →
        (ceil_div_100 (p * gb)) % 32 = min 31 (ceil_div_100 (p * gb))) := by
  constructor
  · intro s n r g b p hg hn hlen
    rw [set_pixel_start_byte s n r g b p hg hn hlen, and_31_eq_mod]
  · intro p gb hp hgb
    have h := ceil_div_100_le p gb hp hgb
    omega

theorem c4_brightness_mask_witness :
    goodRGB (APA102.init 1 31 "rgb").rgb ∧
    ((APA102.init 1 31 "rgb").set_pixel 0 0 0 0 200).getByte 0 =
      ((ceil_div_100 (200 * (APA102.init 1 31 "rgb").global_brightness)) % 32) ||| LED_START ∧
    (ceil_div_100 (100 * 31)) % 32 = min 31 (ceil_div_100 (100 * 31)) := by
  refine ⟨by decide, ?_, ?_⟩
  · exact c4_brightness_mask.1 (APA102.init 1 31 "rgb") 0 0 0 0 200 (by decide) (by decide)
      (by decide)
  · exact c4_brightness_mask.2 100 31 (by decide) (by decide)

/-- C5: for `bright_percent ∈ [0, 100]` and `global_brightness ∈ [0, 31]`,
the leading byte written for a valid index equals
`min(31, ceil(bright_percent * global_brightness / 100)) | 0b11100000`. -/
theorem c5_leading_byte (s : APA102) (n r g b p : Nat) (hg : goodRGB s.rgb)
    (hp : p ≤ 100) (hgb : s.global_brightness ≤ 31)
    (hn : n < s.num_led) (hlen : s.leds.length = 4 * s.num_led) :
    (s.set_pixel (n : Int) r g b p).getByte (4 * n) =
      (min 31 (ceil_div_100 (p * s.global_brightness))) ||| 0b11100000 := by
  rw [set_pixel_start_byte s n r g b p hg hn hlen]
  have h := ceil_div_100_le p s.global_brightness hp hgb
  rw [and_31_of_le _ h]
  unfold LED_START
  congr 1
  omega

theorem c5_leading_byte_witness :
    ((APA102.init 3 20 "rgb").set_pixel 1 7 8 9 50).getByte 4 =
      (min 31 (ceil_div_100 (50 * (APA102.init 3 20 "rgb").global_brightness))) |||
        0b11100000 :=
  c5_leading_byte (APA102.init 3 20 "rgb") 1 7 8 9 50 (by decide) (by decide) (by decide)
    (by decide) (by decide)

/-- C6: for every index outside `[0, num_led)` — negative or too large —
and arbitrary color/brightness arguments, `set_pixel` returns the state
unchanged, so every byte of the pixel buffer is unchanged. -/
theorem c6_out_of_range_noop (s : APA102) (i : Int) (r g b p : Nat)
    (h : i < 0 ∨ (s.num_led : Int) ≤ i) :
    s.set_pixel i r g b p = s ∧
    ∀ k, (s.set_pixel i r g b p).getByte k = s.getByte k := by
  have he := set_pixel_out_of_range s i r g b p h
  exact ⟨he, fun k => by rw [he]⟩

theorem c6_out_of_range_noop_witness :
    ((-1 : Int) < 0 ∨ (((APA102.init 3 31 "rgb").num_led : Nat) : Int) ≤ -1) ∧
    (APA102.init 3 31 "rgb").set_pixel (-1) 5 6 7 100 = APA102.init 3 31 "rgb" :=
  ⟨Or.inl (by decide),
   (c6_out_of_range_noop (APA102.init 3 31 "rgb") (-1) 5 6 7 100 (Or.inl (by decide))).1⟩

/-- C7: `show` emits exactly the 4-byte all-zero start frame, then the pixel
buffer in order split into chunks of at most 32 bytes, then the 4-byte 0xFF
end frame; the transferred bytes concatenate to start ++ buffer ++ end. -/
theorem c7_show_frames (s : APA102) :
    s.show = clock_start_frame :: (chunks32 s.leds ++ [clock_end_frame]) ∧
    s.show.flatten = clock_start_frame ++ (s.leds ++ clock_end_frame) ∧
    (∀ ch ∈ chunks32 s.leds, ch.length ≤ 32) := by
  refine ⟨rfl, ?_, fun ch h => chunks32_go_sizes s.leds.length s.leds ch h⟩
  unfold APA102.show
  simp [chunks32_flatten]

theorem c7_show_frames_witness :
    ([224, 0, 0, 0, 224, 0, 0, 0, 224, 0, 0, 0] : List Nat) ∈
      chunks32 (APA102.init 3 31 "rgb").leds ∧
    ([224, 0, 0, 0, 224, 0, 0, 0, 224, 0, 0, 0] : List Nat).length ≤ 32 :=
  ⟨by decide, (c7_show_frames (APA102.init 3 31 "rgb")).2.2 _ (by decide)⟩

/-- C8: for each of the six channel orderings in `RGB_MAP` and every valid
index, `set_pixel` writes r, g and b at the three byte offsets the ordering
prescribes inside pixel `n`'s 4-byte word, and every byte belonging to a
different pixel is unchanged. -/
theorem c8_channel_order (ord : String) (t : Nat × Nat × Nat)
    (hmap : RGB_MAP ord = some t) (s : APA102) (hrgb : s.rgb = t)
    (n r g b p : Nat) (hn : n < s.num_led) (hlen : s.leds.length = 4 * s.num_led) :
    (s.set_pixel (n : Int) r g b p).getByte (4 * n + t.1) = r ∧
    (s.set_pixel (n : Int) r g b p).getByte (4 * n + t.2.1) = g ∧
    (s.set_pixel (n : Int) r g b p).getByte (4 * n + t.2.2) = b ∧
    ∀ k, k / 4 ≠ n → (s.set_pixel (n : Int) r g b p).getByte k = s.getByte k := by
  subst hrgb
  have hg : goodRGB s.rgb := by
    unfold RGB_MAP at hmap
    split at hmap
    all_goals first
      | exact Option.noConfusion hmap
      | (injection hmap with h; rw [← h]; decide)
  obtain ⟨h1, h2, h3⟩ := set_pixel_channel_bytes s n r g b p hg hn hlen
  refine ⟨h1, h2, h3, ?_⟩
  intro k hk
  exact set_pixel_frame s n r g b p hg hn k (by omega)

theorem c8_channel_order_witness :
    RGB_MAP "bgr" = some (1, 2, 3) ∧
    ((APA102.init 2 31 "bgr").set_pixel 1 10 20 30 100).getByte 5 = 10 ∧
    ((APA102.init 2 31 "bgr").set_pixel 1 10 20 30 100).getByte 6 = 20 ∧
    ((APA102.init 2 31 "bgr").set_pixel 1 10 20 30 100).getByte 7 = 30 ∧
    ((APA102.init 2 31 "bgr").set_pixel 1 10 20 30 100).getByte 2 =
      (APA102.init 2 31 "bgr").getByte 2 := by
  have h := c8_channel_order "bgr" (1, 2, 3) (by decide) (APA102.init 2 31 "bgr") (by decide)
      1 10 20 30 100 (by decide) (by decide)
  exact ⟨by decide, h.1, h.2.1, h.2.2.1, h.2.2.2 2 (by decide)⟩

/-! ### Helper lemmas: buffer invariant -/

theorem set_pixel_inv_step (s : APA102) (i : Int) (r g b p : Nat)
    (hg : goodRGB s.rgb) (hlen : s.leds.length = 4 * s.num_led)
    (hlead : ∀ k, k < s.num_led →
      224 ≤ s.getByte (4 * k) ∧ s.getByte (4 * k) &&& 224 = 224) :
    (s.set_pixel i r g b p).rgb = s.rgb ∧
    (s.set_pixel i r g b p).num_led = s.num_led ∧
    (s.set_pixel i r g b p).leds.length = 4 * s.num_led ∧
    ∀ k, k < s.num_led →
      224 ≤ (s.set_pixel i r g b p).getByte (4 * k) ∧
      (s.set_pixel i r g b p).getByte (4 * k) &&& 224 = 224 := by
  obtain ⟨hf1, hf2, hf3⟩ := set_pixel_fields s i r g b p
  refine ⟨hf2, hf1, by rw [set_pixel_length, hlen], ?_⟩
  intro k hk
  by_cases hout : i < 0 ∨ (s.num_led : Int) ≤ i
  · rw [set_pixel_out_of_range s i r g b p hout]
    exact hlead k hk
  · push_neg at hout
    obtain ⟨n, rfl⟩ : ∃ n : Nat, i = (n : Int) := ⟨i.toNat, by omega⟩
    have hn : n < s.num_led := by omega
    by_cases hkn : k = n
    · subst hkn
      rw [set_pixel_start_byte s k r g b p hg hn hlen]
      exact ledstart_props _
    · rw [set_pixel_frame s n r g b p hg hn (4 * k) (by omega)]
      exact hlead k hk

theorem apply_calls_inv (cs : List PixelCall) (s : APA102)
    (hg : goodRGB s.rgb) (hlen : s.leds.length = 4 * s.num_led)
    (hlead : ∀ k, k < s.num_led →
      224 ≤ s.getByte (4 * k) ∧ s.getByte (4 * k) &&& 224 = 224) :
    (apply_calls s cs).num_led = s.num_led ∧
    (apply_calls s cs).leds.length = 4 * s.num_led ∧
    ∀ k, k < s.num_led →
      224 ≤ (apply_calls s cs).getByte (4 * k) ∧
      (apply_calls s cs).getByte (4 * k) &&& 224 = 224 := by
  induction cs generalizing s with
  | nil => exact ⟨rfl, hlen, hlead⟩
  | cons c cs ih =>
    obtain ⟨hr, hn, hl, hb⟩ :=
      set_pixel_inv_step s c.idx c.red c.green c.blue c.bright hg hlen hlead
    have step_eq : apply_calls s (c :: cs) =
        apply_calls (s.set_pixel c.idx c.red c.green c.blue c.bright) cs := rfl
    obtain ⟨ih1, ih2, ih3⟩ := ih (s.set_pixel c.idx c.red c.green c.blue c.bright)
      (by rw [hr]; exact hg) (by rw [hl, hn]) (by rw [hn]; exact hb)
    rw [step_eq]
    exact ⟨by rw [ih1, hn], by rw [ih2, hn], by rw [hn] at ih3; exact ih3⟩

/-- C10: after construction with any argument and after every sequence of
`set_pixel` calls with arbitrary arguments, the pixel buffer's length is
exactly `4 * num_led`, and the leading byte of every pixel keeps its top
three bits set (it is at least `0b11100000`). -/
theorem c10_buffer_invariant (nl gb : Nat) (ord : String) (cs : List PixelCall) :
    (apply_calls (APA102.init nl gb ord) cs).leds.length = 4 * nl ∧
    ∀ k, k < nl →
      224 ≤ (apply_calls (APA102.init nl gb ord) cs).getByte (4 * k) ∧
      ((apply_calls (APA102.init nl gb ord) cs).getByte (4 * k)) &&& 224 = 224 := by
  have base_lead : ∀ k, k < (APA102.init nl gb ord).num_led →
      224 ≤ (APA102.init nl gb ord).getByte (4 * k) ∧
      (APA102.init nl gb ord).getByte (4 * k) &&& 224 = 224 := by
    intro k hk
    have hb : (APA102.init nl gb ord).getByte (4 * k) = LED_START := by
      unfold APA102.getByte APA102.init
      dsimp only
      exact init_lead_byte nl k hk
    rw [hb]
    exact ⟨by decide, by decide⟩
  obtain ⟨h1, h2, h3⟩ := apply_calls_inv cs (APA102.init nl gb ord)
    (goodRGB_init nl gb ord) (init_leds_length nl gb ord) base_lead
  exact ⟨h2, h3⟩

theorem c10_buffer_invariant_witness :
    (0 : Nat) < 3 ∧
    224 ≤ (apply_calls (APA102.init 3 31 "rgb") [⟨0, 255, 0, 0, 100⟩]).getByte 0 ∧
    (apply_calls (APA102.init 3 31 "rgb") [⟨0, 255, 0, 0, 100⟩]).getByte 0 &&& 224 = 224 :=
  ⟨by decide,
   ((c10_buffer_invariant 3 31 "rgb" [⟨0, 255, 0, 0, 100⟩]).2 0 (by decide)).1,
   ((c10_buffer_invariant 3 31 "rgb" [⟨0, 255, 0, 0, 100⟩]).2 0 (by decide)).2⟩

/-! ### Helper lemmas: reactor -/

theorem play_sound_ok (o : SoundOutcome) : play_sound o = Except.ok () := by
  cases o <;> rfl

/-- Case equations for the prologue `cancel_error_task`. -/
theorem cancel_eq_none (s : ReactorState) (he : s.error_task = none) :
    cancel_error_task s = s := by
  unfold cancel_error_task
  rw [he]

theorem cancel_eq_oob (s : ReactorState) (j : Nat) (he : s.error_task = some j)
    (hjt : s.tasks[j]? = none) : cancel_error_task s = s := by
  unfold cancel_error_task
  rw [he]
  dsimp only
  rw [hjt]

theorem cancel_eq_not_pending (s : ReactorState) (j : Nat) (tj : TaskRec)
    (he : s.error_task = some j) (hjt : s.tasks[j]? = some tj)
    (hs : ¬ tj.status = TaskStatus.pending) : cancel_error_task s = s := by
  unfold cancel_error_task
  rw [he]
  dsimp only
  rw [hjt]
  dsimp only
  rw [if_neg hs]

theorem cancel_eq_pending (s : ReactorState) (j : Nat) (tj : TaskRec)
    (he : s.error_task = some j) (hjt : s.tasks[j]? = some tj)
    (hs : tj.status = TaskStatus.pending) :
    cancel_error_task s =
      { s with tasks := s.tasks.set j ⟨tj.kind, TaskStatus.cancelled⟩,
               display := if s.is_processing then Color.yellow else Color.black } := by
  unfold cancel_error_task
  rw [he]
  dsimp only
  rw [hjt]
  dsimp only
  rw [if_pos hs]

/-- Case equations for `fire_task`. -/
theorem fire_eq_none (s : ReactorState) (k : Nat) (hkt : s.tasks[k]? = none) :
    fire_task s k = s := by
  unfold fire_task
  rw [hkt]

theorem fire_eq_not_pending (s : ReactorState) (k : Nat) (tk : TaskRec)
    (hkt : s.tasks[k]? = some tk) (hs : ¬ tk.status = TaskStatus.pending) :
    fire_task s k = s := by
  unfold fire_task
  rw [hkt]
  dsimp only
  rw [if_neg hs]

theorem fire_eq_pending (s : ReactorState) (k : Nat) (tk : TaskRec)
    (hkt : s.tasks[k]? = some tk) (hs : tk.status = TaskStatus.pending) :
    fire_task s k =
      { s with tasks := s.tasks.set k ⟨tk.kind, TaskStatus.finished⟩,
               display := Color.black, is_processing := false } := by
  unfold fire_task
  rw [hkt]
  dsimp only
  rw [if_pos hs]

theorem cancel_fields (s : ReactorState) :
    (cancel_error_task s).error_task = s.error_task ∧
    (cancel_error_task s).is_processing = s.is_processing ∧
    (cancel_error_task s).tasks.length = s.tasks.length := by
  rcases he : s.error_task with _ | j
  · rw [cancel_eq_none s he]; exact ⟨he, rfl, rfl⟩
  · rcases hjt : s.tasks[j]? with _ | tj
    · rw [cancel_eq_oob s j he hjt]; exact ⟨he, rfl, rfl⟩
    · by_cases hs : tj.status = TaskStatus.pending
      · rw [cancel_eq_pending s j tj he hjt hs]
        exact ⟨he, rfl, by simp⟩
      · rw [cancel_eq_not_pending s j tj he hjt hs]; exact ⟨he, rfl, rfl⟩

/-- After the prologue of `handle_event` no error-revert task is pending. -/
theorem cancel_no_pending_err (s : ReactorState) (h : ErrInv s) (i : Nat) (t : TaskRec)
    (hit : (cancel_error_task s).tasks[i]? = some t)
    (hk : t.kind = TaskKind.errorRevert) : t.status ≠ TaskStatus.pending := by
  intro hp
  cases he : s.error_task with
  | none =>
    rw [cancel_eq_none s he] at hit
    have := h i t hit hk hp
    rw [he] at this
    exact Option.noConfusion this
  | some j =>
    cases hjt : s.tasks[j]? with
    | none =>
      rw [cancel_eq_oob s j he hjt] at hit
      have := h i t hit hk hp
      rw [he] at this
      obtain rfl := Option.some.inj this
      rw [hit] at hjt
      exact Option.noConfusion hjt
    | some tj =>
      by_cases hs : tj.status = TaskStatus.pending
      · rw [cancel_eq_pending s j tj he hjt hs] at hit
        dsimp only at hit
        by_cases hij : i = j
        · subst hij
          have hlt : i < s.tasks.length := (List.getElem?_eq_some_iff.mp hjt).1
          rw [List.getElem?_set_self (by simpa using hlt)] at hit
          obtain rfl := Option.some.inj hit
          exact absurd hp (by simp)
        · rw [List.getElem?_set_ne (fun hji => hij hji.symm)] at hit
          have := h i t hit hk hp
          rw [he] at this
          exact hij (Option.some.inj this).symm
      · rw [cancel_eq_not_pending s j tj he hjt hs] at hit
        have := h i t hit hk hp
        rw [he] at this
        obtain rfl := Option.some.inj this
        rw [hit] at hjt
        obtain rfl := Option.some.inj hjt
        exact hs hp

/-- Cancellation never changes a task's kind nor removes it. -/
theorem cancel_kind_preserved (s : ReactorState) (i : Nat) (t2 : TaskRec)
    (hit : (cancel_error_task s).tasks[i]? = some t2) :
    ∃ t, s.tasks[i]? = some t ∧ t2.kind = t.kind := by
  cases he : s.error_task with
  | none => rw [cancel_eq_none s he] at hit; exact ⟨t2, hit, rfl⟩
  | some j =>
    cases hjt : s.tasks[j]? with
    | none => rw [cancel_eq_oob s j he hjt] at hit; exact ⟨t2, hit, rfl⟩
    | some tj =>
      by_cases hs : tj.status = TaskStatus.pending
      · rw [cancel_eq_pending s j tj he hjt hs] at hit
        dsimp only at hit
        by_cases hij : i = j
        · subst hij
          have hlt : i < s.tasks.length := (List.getElem?_eq_some_iff.mp hjt).1
          rw [List.getElem?_set_self (by simpa using hlt)] at hit
          obtain rfl := Option.some.inj hit
          exact ⟨tj, hjt, rfl⟩
        · rw [List.getElem?_set_ne (fun hji => hij hji.symm)] at hit
          exact ⟨t2, hit, rfl⟩
      · rw [cancel_eq_not_pending s j tj he hjt hs] at hit
        exact ⟨t2, hit, rfl⟩

/-- The dispatch branch only appends to the prologue state's task list, so
positions below the prologue's task-list length read through. -/
theorem handle_event_tasks_below (o : SoundOutcome) (e : EventType) (s : ReactorState)
    (i : Nat) (hlt : i < (cancel_error_task s).tasks.length) :
    (handle_event o e s).1.tasks[i]? = (cancel_error_task s).tasks[i]? := by
  unfold handle_event
  cases e <;> dsimp only <;>
    first
      | rfl
      | rw [play_sound_ok]
      | exact List.getElem?_append_left hlt
      | (split <;> rfl)

theorem handle_event_tasks_length (o : SoundOutcome) (e : EventType) (s : ReactorState) :
    (cancel_error_task s).tasks.length ≤ (handle_event o e s).1.tasks.length := by
  unfold handle_event
  cases e <;> dsimp only <;>
    first
      | exact Nat.le_refl _
      | rw [play_sound_ok]
      | simp
      | (split <;> exact Nat.le_refl _)

theorem step_length_mono (s : ReactorState) (a : Act) :
    s.tasks.length ≤ (step s a).tasks.length := by
  cases a with
  | recv e o =>
    show s.tasks.length ≤ (handle_event o e s).1.tasks.length
    have h1 := (cancel_fields s).2.2
    have h2 := handle_event_tasks_length o e s
    omega
  | fire k =>
    show s.tasks.length ≤ (fire_task s k).tasks.length
    rcases hkt : s.tasks[k]? with _ | tk
    · rw [fire_eq_none s k hkt]
    · by_cases hs : tk.status = TaskStatus.pending
      · rw [fire_eq_pending s k tk hkt hs]; simp
      · rw [fire_eq_not_pending s k tk hkt hs]

/-- A pre-existing task that is not pending never becomes pending again. -/
theorem step_nonpending_mono (s : ReactorState) (a : Act) (i : Nat)
    (hlt : i < s.tasks.length)
    (hnp : ∀ t, s.tasks[i]? = some t → t.status ≠ TaskStatus.pending) :
    i < (step s a).tasks.length ∧
    ∀ t, (step s a).tasks[i]? = some t → t.status ≠ TaskStatus.pending := by
  refine ⟨Nat.lt_of_lt_of_le hlt (step_length_mono s a), ?_⟩
  cases a with
  | recv e o =>
    intro t ht
    have hclt : i < (cancel_error_task s).tasks.length := by
      rw [(cancel_fields s).2.2]; exact hlt
    rw [show step s (Act.recv e o) = (handle_event o e s).1 from rfl,
        handle_event_tasks_below o e s i hclt] at ht
    cases he : s.error_task with
    | none => rw [cancel_eq_none s he] at ht; exact hnp t ht
    | some j =>
      cases hjt : s.tasks[j]? with
      | none => rw [cancel_eq_oob s j he hjt] at ht; exact hnp t ht
      | some tj =>
        by_cases hs : tj.status = TaskStatus.pending
        · rw [cancel_eq_pending s j tj he hjt hs] at ht
          dsimp only at ht
          by_cases hij : i = j
          · subst hij
            have hl : i < s.tasks.length := (List.getElem?_eq_some_iff.mp hjt).1
            rw [List.getElem?_set_self (by simpa using hl)] at ht
            obtain rfl := Option.some.inj ht
            simp
          · rw [List.getElem?_set_ne (fun hji => hij hji.symm)] at ht
            exact hnp t ht
        · rw [cancel_eq_not_pending s j tj he hjt hs] at ht
          exact hnp t ht
  | fire k =>
    intro t ht
    rw [show step s (Act.fire k) = fire_task s k from rfl] at ht
    cases hkt : s.tasks[k]? with
    | none => rw [fire_eq_none s k hkt] at ht; exact hnp t ht
    | some tk =>
      by_cases hs : tk.status = TaskStatus.pending
      · rw [fire_eq_pending s k tk hkt hs] at ht
        dsimp only at ht
        by_cases hik : i = k
        · subst hik
          have hl : i < s.tasks.length := (List.getElem?_eq_some_iff.mp hkt).1
          rw [List.getElem?_set_self (by simpa using hl)] at ht
          obtain rfl := Option.some.inj ht
          simp
        · rw [List.getElem?_set_ne (fun hki => hik hki.symm)] at ht
          exact hnp t ht
      · rw [fire_eq_not_pending s k tk hkt hs] at ht
        exact hnp t ht

theorem foldl_nonpending (rest : List Act) (s0 : ReactorState) (i : Nat)
    (hlt : i < s0.tasks.length)
    (hnp : ∀ t, s0.tasks[i]? = some t → t.status ≠ TaskStatus.pending) :
    i < (rest.foldl step s0).tasks.length ∧
    ∀ t, (rest.foldl step s0).tasks[i]? = some t → t.status ≠ TaskStatus.pending := by
  induction rest generalizing s0 with
  | nil => exact ⟨hlt, hnp⟩
  | cons a rest ih =>
    obtain ⟨h1, h2⟩ := step_nonpending_mono s0 a i hlt hnp
    exact ih (step s0 a) h1 h2

/-- Firing a task that is not pending has no effect. -/
theorem fire_noop (s : ReactorState) (i : Nat)
    (hnp : ∀ t, s.tasks[i]? = some t → t.status ≠ TaskStatus.pending) :
    fire_task s i = s := by
  cases hit : s.tasks[i]? with
  | none => exact fire_eq_none s i hit
  | some t => exact fire_eq_not_pending s i t hit (hnp t hit)

/-- `ErrInv` is preserved by every scheduler action. -/
theorem ErrInv_step (s : ReactorState) (a : Act) (h : ErrInv s) : ErrInv (step s a) := by
  cases a with
  | recv e o =>
    intro i t hit hk hp
    have hnope := cancel_no_pending_err s h
    have hef : (cancel_error_task s).error_task = s.error_task := (cancel_fields s).1
    rw [show step s (Act.recv e o) = (handle_event o e s).1 from rfl] at hit ⊢
    unfold handle_event at hit ⊢
    cases e <;> dsimp only at hit ⊢
    case detection =>
      rw [play_sound_ok] at hit ⊢
      dsimp only at hit ⊢
      exact absurd hp (hnope i t hit hk)
    case errorNoText =>
      by_cases hil : i < (cancel_error_task s).tasks.length
      · rw [List.getElem?_append_left hil] at hit
        exact absurd hp (hnope i t hit hk)
      · have hge : (cancel_error_task s).tasks.length ≤ i := Nat.le_of_not_lt hil
        rw [List.getElem?_append_right hge] at hit
        rcases Nat.lt_or_ge (i - (cancel_error_task s).tasks.length) 1 with hlt1 | hge1
        · have hieq : i = (cancel_error_task s).tasks.length := by omega
          subst hieq
          rfl
        · rw [List.getElem?_eq_none (by simpa using hge1)] at hit
          exact Option.noConfusion hit
    case streamingStarted =>
      by_cases hproc : (cancel_error_task s).is_processing
      · rw [if_pos hproc] at hit ⊢
        exact absurd hp (hnope i t hit hk)
      · rw [if_neg hproc] at hit ⊢
        exact absurd hp (hnope i t hit hk)
    case synthesize =>
      by_cases hil : i < (cancel_error_task s).tasks.length
      · rw [List.getElem?_append_left hil] at hit
        exact absurd hp (hnope i t hit hk)
      · have hge : (cancel_error_task s).tasks.length ≤ i := Nat.le_of_not_lt hil
        rw [List.getElem?_append_right hge] at hit
        rcases Nat.lt_or_ge (i - (cancel_error_task s).tasks.length) 1 with hlt1 | hge1
        · have hzero : i - (cancel_error_task s).tasks.length = 0 := by omega
          rw [hzero] at hit
          obtain rfl := Option.some.inj hit
          exact absurd hk (by simp)
        · rw [List.getElem?_eq_none (by simpa using hge1)] at hit
          exact Option.noConfusion hit
    all_goals exact absurd hp (hnope i t hit hk)
  | fire k =>
    intro i t hit hk hp
    rw [show step s (Act.fire k) = fire_task s k from rfl] at hit ⊢
    cases hkt : s.tasks[k]? with
    | none => rw [fire_eq_none s k hkt] at hit ⊢; exact h i t hit hk hp
    | some tk =>
      by_cases hs : tk.status = TaskStatus.pending
      · rw [fire_eq_pending s k tk hkt hs] at hit ⊢
        dsimp only at hit ⊢
        by_cases hik : i = k
        · subst hik
          have hl : i < s.tasks.length := (List.getElem?_eq_some_iff.mp hkt).1
          rw [List.getElem?_set_self (by simpa using hl)] at hit
          obtain rfl := Option.some.inj hit
          exact absurd hp (by simp)
        · rw [List.getElem?_set_ne (fun hki => hik hki.symm)] at hit
          exact h i t hit hk hp
      · rw [fire_eq_not_pending s k tk hkt hs] at hit ⊢
        exact h i t hit hk hp

theorem ErrInv_init : ErrInv initState := by
  intro i t hit hk hp
  simp [initState] at hit

theorem ErrInv_foldl (acts : List Act) (s : ReactorState) (h : ErrInv s) :
    ErrInv (acts.foldl step s) := by
  induction acts generalizing s with
  | nil => exact h
  | cons a acts ih => exact ih (step s a) (ErrInv_step s a h)

theorem ErrInv_run (acts : List Act) : ErrInv (run acts) :=
  ErrInv_foldl acts initState ErrInv_init

/-- Receiving any event leaves every pre-existing error-revert task
non-pending. -/
theorem recv_kills_old_err (s : ReactorState) (e : EventType) (o : SoundOutcome)
    (i : Nat) (h : ErrInv s) (hlt : i < s.tasks.length)
    (hk : ∀ t, s.tasks[i]? = some t → t.kind = TaskKind.errorRevert) :
    ∀ t, (step s (Act.recv e o)).tasks[i]? = some t → t.status ≠ TaskStatus.pending := by
  intro t ht
  have hclt : i < (cancel_error_task s).tasks.length := by
    rw [(cancel_fields s).2.2]; exact hlt
  rw [show step s (Act.recv e o) = (handle_event o e s).1 from rfl,
      handle_event_tasks_below o e s i hclt] at ht
  obtain ⟨t0, ht0, hkind⟩ := cancel_kind_preserved s i t ht
  exact cancel_no_pending_err s h i t ht (by rw [hkind]; exact hk t0 ht0)

/-- The prologue marks the stored pending error task cancelled. -/
theorem cancel_sets_cancelled (s : ReactorState) (i : Nat) (t : TaskRec)
    (he : s.error_task = some i) (ht : s.tasks[i]? = some t)
    (hp : t.status = TaskStatus.pending) :
    (cancel_error_task s).tasks[i]? = some ⟨t.kind, TaskStatus.cancelled⟩ := by
  rw [cancel_eq_pending s i t he ht hp]
  dsimp only
  have hl : i < s.tasks.length := (List.getElem?_eq_some_iff.mp ht).1
  rw [List.getElem?_set_self (by simpa using hl)]

/-! ### Reactor claims -/

/-- C1, counterexample: a `turn_off_after_delay` task created by a
`synthesize` event is stored nowhere, so the prologue of `handle_event`
cannot cancel it; after a newer `detection` event has been fully processed
the task is still pending and its firing still changes the state (it
repaints black and clears the processing flag set by the detection). -/
theorem c1_counterexample :
    (run [Act.recv EventType.synthesize SoundOutcome.success,
          Act.recv EventType.detection SoundOutcome.success]).tasks[0]? =
      some ⟨TaskKind.turnOff, TaskStatus.pending⟩ ∧
    step (run [Act.recv EventType.synthesize SoundOutcome.success,
               Act.recv EventType.detection SoundOutcome.success]) (Act.fire 0) ≠
      run [Act.recv EventType.synthesize SoundOutcome.success,
           Act.recv EventType.detection SoundOutcome.success] := by decide

/-- C1, amended: on every incoming event the handler first cancels the
stored error-revert task if it is pending, before any other effect, and a
pre-existing error-revert task can never fire after a newer event has been
processed (its firing is a no-op from then on).  The `synthesize` turn-off
task, by contrast, is untracked and is not covered by this preemption. -/
theorem c1_error_task_preempted :
    (∀ (o : SoundOutcome) (e : EventType) (s : ReactorState) (i : Nat) (t : TaskRec),
      s.error_task = some i → s.tasks[i]? = some t → t.status = TaskStatus.pending →
      (handle_event o e s).1.tasks[i]? = some ⟨t.kind, TaskStatus.cancelled⟩) ∧
    (∀ (acts : List Act) (e : EventType) (o : SoundOutcome) (rest : List Act) (i : Nat),
      i < (run acts).tasks.length →
      (∀ t, (run acts).tasks[i]? = some t → t.kind = TaskKind.errorRevert) →
      fire_task (run (acts ++ Act.recv e o :: rest)) i =
        run (acts ++ Act.recv e o :: rest)) := by
  constructor
  · intro o e s i t he ht hp
    have hl : i < s.tasks.length := (List.getElem?_eq_some_iff.mp ht).1
    have hclt : i < (cancel_error_task s).tasks.length := by
      rw [(cancel_fields s).2.2]; exact hl
    rw [handle_event_tasks_below o e s i hclt]
    exact cancel_sets_cancelled s i t he ht hp
  · intro acts e o rest i hlt hk
    have hinv := ErrInv_run acts
    have h1 : ∀ t, (step (run acts) (Act.recv e o)).tasks[i]? = some t →
        t.status ≠ TaskStatus.pending :=
      recv_kills_old_err (run acts) e o i hinv hlt hk
    have hlt1 : i < (step (run acts) (Act.recv e o)).tasks.length :=
      Nat.lt_of_lt_of_le hlt (step_length_mono _ _)
    have hrun : run (acts ++ Act.recv e o :: rest) =
        rest.foldl step (step (run acts) (Act.recv e o)) := by
      unfold run
      rw [List.foldl_append]
      rfl
    obtain ⟨h2, h3⟩ := foldl_nonpending rest (step (run acts) (Act.recv e o)) i hlt1 h1
    rw [hrun]
    exact fire_noop _ i h3

theorem c1_error_task_preempted_witness :
    (handle_event SoundOutcome.success EventType.synthesize
        (run [Act.recv EventType.errorNoText SoundOutcome.success])).1.tasks[0]? =
      some ⟨TaskKind.errorRevert, TaskStatus.cancelled⟩ ∧
    fire_task (run ([Act.recv EventType.errorNoText SoundOutcome.success] ++
        Act.recv EventType.synthesize SoundOutcome.success :: [])) 0 =
      run ([Act.recv EventType.errorNoText SoundOutcome.success] ++
        Act.recv EventType.synthesize SoundOutcome.success :: []) := by
  constructor
  · exact c1_error_task_preempted.1 SoundOutcome.success EventType.synthesize
      (run [Act.recv EventType.errorNoText SoundOutcome.success]) 0
      ⟨TaskKind.errorRevert, TaskStatus.pending⟩ (by decide) (by decide) rfl
  · refine c1_error_task_preempted.2 [Act.recv EventType.errorNoText SoundOutcome.success]
      EventType.synthesize SoundOutcome.success [] 0 (by decide) ?_
    intro t ht
    have h0 : (run [Act.recv EventType.errorNoText SoundOutcome.success]).tasks[0]? =
        some ⟨TaskKind.errorRevert, TaskStatus.pending⟩ := rfl
    rw [h0] at ht
    obtain rfl := Option.some.inj ht
    rfl

/-- C2, counterexample: two `synthesize` events create two untracked
`turn_off_after_delay` tasks; both are outstanding at once and both firings
take effect (each changes the state), so scheduling the second did not
cancel the first. -/
theorem c2_counterexample :
    pending_count (run [Act.recv EventType.synthesize SoundOutcome.success,
                        Act.recv EventType.synthesize SoundOutcome.success]) = 2 ∧
    step (run [Act.recv EventType.synthesize SoundOutcome.success,
               Act.recv EventType.synthesize SoundOutcome.success,
               Act.recv EventType.detection SoundOutcome.success]) (Act.fire 0) ≠
      run [Act.recv EventType.synthesize SoundOutcome.success,
           Act.recv EventType.synthesize SoundOutcome.success,
           Act.recv EventType.detection SoundOutcome.success] ∧
    step (step (run [Act.recv EventType.synthesize SoundOutcome.success,
                     Act.recv EventType.synthesize SoundOutcome.success,
                     Act.recv EventType.detection SoundOutcome.success])
          (Act.fire 0)) (Act.fire 1) ≠
      step (run [Act.recv EventType.synthesize SoundOutcome.success,
                 Act.recv EventType.synthesize SoundOutcome.success,
                 Act.recv EventType.detection SoundOutcome.success]) (Act.fire 0) := by
  decide

/-- C2, amended: at most one error-revert task is outstanding at any point
of any action sequence — scheduling a new one cancels the previous one.
The untracked `synthesize` turn-off tasks are not covered: several of them
can be outstanding simultaneously. -/
theorem c2_at_most_one_error_task :
    ∀ (acts : List Act) (i j : Nat) (ti tj : TaskRec),
      (run acts).tasks[i]? = some ti → ti.kind = TaskKind.errorRevert →
      ti.status = TaskStatus.pending →
      (run acts).tasks[j]? = some tj → tj.kind = TaskKind.errorRevert →
      tj.status = TaskStatus.pending →
      i = j := by
  intro acts i j ti tj hi hik his hj hjk hjs
  have h := ErrInv_run acts
  have h1 := h i ti hi hik his
  have h2 := h j tj hj hjk hjs
  rw [h1] at h2
  exact Option.some.inj h2

theorem c2_at_most_one_error_task_witness :
    (run [Act.recv EventType.errorNoText SoundOutcome.success]).tasks[0]? =
      some ⟨TaskKind.errorRevert, TaskStatus.pending⟩ ∧
    (0 : Nat) = 0 :=
  ⟨rfl, c2_at_most_one_error_task [Act.recv EventType.errorNoText SoundOutcome.success]
    0 0 ⟨TaskKind.errorRevert, TaskStatus.pending⟩ ⟨TaskKind.errorRevert, TaskStatus.pending⟩
    rfl rfl rfl rfl rfl rfl⟩

/-- C3, counterexample: after a wake detection (processing flag true) and an
`stt-no-text-recognized` error, the 5-second error-revert task is pending;
when it fires after its delay the code paints black unconditionally
(lines 188-189) even though `processing` is true at that moment — it does
not restore yellow as claimed. -/
theorem c3_counterexample :
    (run [Act.recv EventType.detection SoundOutcome.success,
          Act.recv EventType.errorNoText SoundOutcome.success]).is_processing = true ∧
    (run [Act.recv EventType.detection SoundOutcome.success,
          Act.recv EventType.errorNoText SoundOutcome.success]).tasks[0]? =
      some ⟨TaskKind.errorRevert, TaskStatus.pending⟩ ∧
    (step (run [Act.recv EventType.detection SoundOutcome.success,
                Act.recv EventType.errorNoText SoundOutcome.success])
        (Act.fire 0)).display ≠ Color.yellow ∧
    (step (run [Act.recv EventType.detection SoundOutcome.success,
                Act.recv EventType.errorNoText SoundOutcome.success])
        (Act.fire 0)).display = Color.black := by decide

/-- C3, amended: only on cancellation does the error-revert task consult the
current `processing` flag, restoring yellow if it is set and black otherwise;
on normal firing after the delay it unconditionally paints black and clears
the flag. -/
theorem c3_revert_behavior :
    (∀ (s : ReactorState) (i : Nat) (t : TaskRec),
      s.error_task = some i → s.tasks[i]? = some t → t.status = TaskStatus.pending →
      (cancel_error_task s).display =
        (if s.is_processing then Color.yellow else Color.black)) ∧
    (∀ (s : ReactorState) (i : Nat) (t : TaskRec),
      s.tasks[i]? = some t → t.status = TaskStatus.pending →
      (fire_task s i).display = Color.black ∧
      (fire_task s i).is_processing = false) := by
  constructor
  · intro s i t he ht hp
    rw [cancel_eq_pending s i t he ht hp]
  · intro s i t ht hp
    rw [fire_eq_pending s i t ht hp]
    exact ⟨rfl, rfl⟩

theorem c3_revert_behavior_witness :
    (cancel_error_task (run [Act.recv EventType.detection SoundOutcome.success,
        Act.recv EventType.errorNoText SoundOutcome.success])).display = Color.yellow ∧
    (fire_task (run [Act.recv EventType.detection SoundOutcome.success,
        Act.recv EventType.errorNoText SoundOutcome.success]) 0).display = Color.black := by
  constructor
  · have h := c3_revert_behavior.1
      (run [Act.recv EventType.detection SoundOutcome.success,
            Act.recv EventType.errorNoText SoundOutcome.success]) 0
      ⟨TaskKind.errorRevert, TaskStatus.pending⟩ rfl rfl rfl
    rw [h]
    rfl
  · exact (c3_revert_behavior.2
      (run [Act.recv EventType.detection SoundOutcome.success,
            Act.recv EventType.errorNoText SoundOutcome.success]) 0
      ⟨TaskKind.errorRevert, TaskStatus.pending⟩ rfl rfl).1

/-- C9: `play_sound` swallows every failure of the `aplay` invocation (it
always returns successfully); consequently `handle_event` never lets a
playback error escape, and the handler state — processing flag, task list
and display, hence the rendered pixel buffer — is identical to the state
after a successful playback. -/
theorem c9_sound_isolated :
    (∀ o : SoundOutcome, play_sound o = Except.ok ()) ∧
    (∀ (o : SoundOutcome) (e : EventType) (s : ReactorState),
      (handle_event o e s).2 = none) ∧
    (∀ (o o2 : SoundOutcome) (e : EventType) (s : ReactorState),
      (handle_event o e s).1 = (handle_event o2 e s).1) ∧
    (∀ (o o2 : SoundOutcome) (e : EventType) (s : ReactorState) (gb : Nat),
      render gb (handle_event o e s).1 = render gb (handle_event o2 e s).1) := by
  have h2 : ∀ (o : SoundOutcome) (e : EventType) (s : ReactorState),
      (handle_event o e s).2 = none := by
    intro o e s
    unfold handle_event
    cases e <;> simp [play_sound_ok]
  have h3 : ∀ (o o2 : SoundOutcome) (e : EventType) (s : ReactorState),
      (handle_event o e s).1 = (handle_event o2 e s).1 := by
    intro o o2 e s
    unfold handle_event
    cases e <;> simp [play_sound_ok]
  exact ⟨play_sound_ok, h2, h3, fun o o2 e s gb => by rw [h3 o o2 e s]⟩

end TwoMic
